import Mathlib

/-!
Verification of the SMTP client session in `server.py` (`send_smtp_message`
and its inner helpers `read_response` and `send_command`).

Modelling choices (shallow embedding):
* the byte stream received from the peer is a `List Char` (the traffic is
  ASCII text; `decode('utf-8', errors='ignore')` is the identity on it);
* `socket.recv(1)` returning an empty chunk (peer closed the connection)
  is modelled by the stream list being exhausted;
* everything written to the socket, plus opening and closing it, is
  recorded in an event trace (`Ev`);
* a Python exception raised inside the `try` block and caught by the
  `except` clause is modelled by `Except.error` carrying the exception
  message; the surrounding function converts it to the boolean `False`
  exactly as the Python code does.
-/

/-- Python `data.endswith` with argument CRLF, on a list of characters. -/
def endsCRLF (l : List Char) : Bool :=
  (['\r', '\n'] : List Char).isSuffixOf l

/-- Holds when the two-character sequence CR LF occurs nowhere in `l`. -/
def noCRLFin : List Char → Bool
  | '\r' :: '\n' :: _ => false
  | _ :: rest => noCRLFin rest
  | [] => true

/-- Python `str.strip()`: drop whitespace from both ends. -/
def stripWs (l : List Char) : List Char :=
  ((l.dropWhile Char.isWhitespace).reverse.dropWhile Char.isWhitespace).reverse

/-- The receive loop of `read_response` in `server.py`: read one byte at a
time, stop when the accumulated data ends in CRLF or the stream is
exhausted (`recv` returned no bytes).  Returns the accumulated raw bytes
and the rest of the stream. -/
def readRawLoop : List Char → List Char → List Char × List Char
  | [], data => (data, [])
  | c :: rest, data =>
    if endsCRLF (data ++ [c]) then (data ++ [c], rest)
    else readRawLoop rest (data ++ [c])

/-- Function `read_response` in `server.py`: accumulate bytes up to and including
the first CRLF (or until the peer closes), then
`decode('utf-8', errors='ignore').strip()`. -/
def read_response (inp : List Char) : List Char × List Char :=
  let r := readRawLoop inp []
  (stripWs r.1, r.2)

/-- The rest of the stream after `n` executions of `read_response`. -/
def skipReplies (inp : List Char) : Nat → List Char
  | 0 => inp
  | n + 1 => skipReplies (read_response inp).2 n

/-- The (trimmed) reply produced by the `(n+1)`-st execution of
`read_response` on the stream `inp`. -/
def replyAt (inp : List Char) (n : Nat) : List Char :=
  (read_response (skipReplies inp n)).1

/-- Python `raw_message.replace` of CRLF by LF: leftmost, non-overlapping. -/
def crlfToLf : List Char → List Char
  | '\r' :: '\n' :: rest => '\n' :: crlfToLf rest
  | c :: rest => c :: crlfToLf rest
  | [] => []

/-- Python `replace` of LF by CRLF: leftmost, non-overlapping, replacements
are not rescanned. -/
def lfToCrlf : List Char → List Char
  | '\n' :: rest => '\r' :: '\n' :: lfToCrlf rest
  | c :: rest => c :: lfToCrlf rest
  | [] => []

/-- Line 109 of `server.py`:
`raw_message.replace('\r\n', '\n').replace('\n', '\r\n')`. -/
def normalizeNewlines (raw_message : List Char) : List Char :=
  lfToCrlf (crlfToLf raw_message)

/-- Python `split` on the two-character separator CRLF (the separator is non-empty, so Python keeps
empty fields). -/
def splitCRLF : List Char → List (List Char)
  | '\r' :: '\n' :: rest => [] :: splitCRLF rest
  | c :: rest =>
    match splitCRLF rest with
    | l :: ls => (c :: l) :: ls
    | [] => [[c]]
  | [] => [[]]

/-- Lines 114-117 of `server.py`: a line that `startswith('.')` gets one
more `'.'` prepended, any other line is unchanged. -/
def stuffLine (line : List Char) : List Char :=
  if (['.'] : List Char).isPrefixOf line then '.' :: line else line

/-- Python `join` of lines with separator CRLF. -/
def joinCRLF : List (List Char) → List Char
  | [] => []
  | [l] => l
  | l :: ls => l ++ '\r' :: '\n' :: joinCRLF ls

/-- Lines 112-118 of `server.py`: split on CRLF, dot-stuff each line,
rejoin with CRLF, append one trailing CRLF. -/
def dotStuff (data_to_send : List Char) : List Char :=
  joinCRLF ((splitCRLF data_to_send).map stuffLine) ++ ['\r', '\n']

/-- The whole content transformation applied before the DATA write:
normalize line endings, then dot-stuff (lines 108-118). -/
def transformContent (raw_message : List Char) : List Char :=
  dotStuff (normalizeNewlines raw_message)

/-- Modelled from the spec: the inverse of dot-stuffing, "re-removing one
leading `.` from every line that starts with `..`" (spec §8); the code
itself contains no destuffer, only its receiving peer would. -/
def destuffLine (line : List Char) : List Char :=
  if (['.', '.'] : List Char).isPrefixOf line then line.tail else line

/-- Checker for "every line-break character occurs only as part of a CRLF
pair": every CR is immediately followed by LF and every LF is immediately
preceded by CR. -/
def crlfOnly : List Char → Bool
  | '\r' :: '\n' :: rest => crlfOnly rest
  | '\r' :: _ => false
  | '\n' :: _ => false
  | _ :: rest => crlfOnly rest
  | [] => true

/-- Checker for "every LF occurs only as part of a CRLF pair". -/
def noBareLf : List Char → Bool
  | '\r' :: '\n' :: rest => noBareLf rest
  | '\n' :: _ => false
  | _ :: rest => noBareLf rest
  | [] => true

/-- Checker for "every CR is immediately followed by LF" (no lone
carriage return). -/
def noLoneCr : List Char → Bool
  | '\r' :: '\n' :: rest => noLoneCr rest
  | '\r' :: _ => false
  | _ :: rest => noLoneCr rest
  | [] => true

/-- An observable side effect of the session on its transport socket. -/
inductive Ev
  | opened
  | wrote (data : List Char)
  | closed
deriving DecidableEq

/-- The session's view of the transport: the unread part of the peer's
byte stream, and the trace of socket events so far. -/
structure St where
  inp : List Char
  tr : List Ev
deriving DecidableEq

/-- Constant `APP_DOMAIN = 'mydomain.com'` (line 24 of `server.py`). -/
def APP_DOMAIN : List Char := "mydomain.com".data

/-- Converts the `Except` model of the `try` block's outcome to the
boolean that `send_smtp_message` actually returns. -/
def isOkE {α : Type} : Except (List Char) α → Bool
  | Except.ok _ => true
  | Except.error _ => false

/-- Function `send_command` in `server.py` (lines 81-87): write `cmd + '\r\n'`,
read one reply, accept it iff it starts with the decimal digits of
`expected_code`; a rejected reply raises (modelled by `Except.error`
carrying the exception message). -/
def send_command (st : St) (cmd : List Char) (expected_code : Nat) :
    Except (List Char) (List Char) × St :=
  let st1 : St := { st with tr := st.tr ++ [Ev.wrote (cmd ++ ['\r', '\n'])] }
  let r := read_response st1.inp
  let st2 : St := { st1 with inp := r.2 }
  if ((toString expected_code).data).isPrefixOf r.1 then
    (Except.ok r.1, st2)
  else
    (Except.error (("SMTP Error (expected " ++ toString expected_code ++ "): ").data ++ r.1), st2)

/-- The `for rcpt in rcpt_to_list` loop (lines 102-103): one
`RCPT TO:<rcpt>` command per recipient, stopping at the first rejected
reply. -/
def rcptLoop : St → List (List Char) → Except (List Char) Unit × St
  | st, [] => (Except.ok (), st)
  | st, rcpt :: rest =>
    match send_command st ("RCPT TO:<".data ++ rcpt ++ [('>' : Char)]) 250 with
    | (Except.ok _, st2) => rcptLoop st2 rest
    | (Except.error e, st2) => (Except.error e, st2)

/-- The body of the `try` block of `send_smtp_message` (lines 90-129),
starting after the connection has been established: greeting check, EHLO,
MAIL FROM, RCPT TO loop, DATA, transformed content write, lone-dot
terminator, QUIT. -/
def send_smtp_message_core (mail_from : List Char) (rcpt_to_list : List (List Char))
    (raw_message : List Char) (st : St) : Except (List Char) Unit × St :=
  let g := read_response st.inp
  let st1 : St := { st with inp := g.2 }
  if ¬ (("220".data).isPrefixOf g.1) then
    (Except.error ("Did not receive 220 initial greeting.".data), st1)
  else
    match send_command st1 ("EHLO ".data ++ APP_DOMAIN) 250 with
    | (Except.error e, st2) => (Except.error e, st2)
    | (Except.ok _, st2) =>
      match send_command st2 ("MAIL FROM:<".data ++ mail_from ++ [('>' : Char)]) 250 with
      | (Except.error e, st3) => (Except.error e, st3)
      | (Except.ok _, st3) =>
        match rcptLoop st3 rcpt_to_list with
        | (Except.error e, st4) => (Except.error e, st4)
        | (Except.ok _, st4) =>
          match send_command st4 ("DATA".data) 354 with
          | (Except.error e, st5) => (Except.error e, st5)
          | (Except.ok _, st5) =>
            let stuffed_data := transformContent raw_message
            let st6 : St := { st5 with tr := st5.tr ++ [Ev.wrote stuffed_data] }
            match send_command st6 (".".data) 250 with
            | (Except.error e, st7) => (Except.error e, st7)
            | (Except.ok _, st7) =>
              match send_command st7 ("QUIT".data) 221 with
              | (Except.error e, st8) => (Except.error e, st8)
              | (Except.ok _, st8) => (Except.ok (), st8)

/-- Function `send_smtp_message` (lines 61-136).  `connectOk` is whether
`socket.create_connection` succeeds; `inp` is the peer's byte stream.
Returns the boolean result together with the socket event trace: on a
successful connect the socket is opened, the `try` body runs, the
`except` clause converts any exception to `False`, and the `finally`
clause closes the socket; on a failed connect `s` is still `None`, so
nothing is opened, written or closed. -/
def send_smtp_message (mail_from : List Char) (rcpt_to_list : List (List Char))
    (raw_message : List Char) (connectOk : Bool) (inp : List Char) : Bool × List Ev :=
  if connectOk then
    let r := send_smtp_message_core mail_from rcpt_to_list raw_message
      { inp := inp, tr := [Ev.opened] }
    (isOkE r.1, r.2.tr ++ [Ev.closed])
  else
    (false, [])

lemma toStr250 : (toString (250 : Nat)).data = "250".data := by decide

lemma toStr354 : (toString (354 : Nat)).data = "354".data := by decide

lemma toStr221 : (toString (221 : Nat)).data = "221".data := by decide

lemma replyAt_shift (inp : List Char) (k n : Nat) :
    replyAt (skipReplies inp k) n = replyAt inp (k + n) := by
  induction k generalizing inp with
  | zero => simp [skipReplies]
  | succ m ih =>
    have h1 : skipReplies inp (m + 1) = skipReplies ((read_response inp).2) m := rfl
    rw [h1, ih]
    have h2 : replyAt ((read_response inp).2) (m + n) = replyAt inp ((m + n) + 1) := rfl
    rw [h2]
    congr 1
    omega

lemma send_command_eq (st : St) (cmd : List Char) (code : Nat) :
    send_command st cmd code =
      (if ((toString code).data).isPrefixOf (replyAt st.inp 0) then
        (Except.ok (replyAt st.inp 0),
         { inp := skipReplies st.inp 1, tr := st.tr ++ [Ev.wrote (cmd ++ ['\r', '\n'])] })
       else
        (Except.error ((("SMTP Error (expected " ++ toString code ++ "): ").data) ++ replyAt st.inp 0),
         { inp := skipReplies st.inp 1, tr := st.tr ++ [Ev.wrote (cmd ++ ['\r', '\n'])] })) := rfl

lemma skipReplies_add (inp : List Char) (a b : Nat) :
    skipReplies (skipReplies inp a) b = skipReplies inp (a + b) := by
  induction a generalizing inp with
  | zero => simp [skipReplies]
  | succ m ih =>
    have h1 : skipReplies inp (m + 1) = skipReplies ((read_response inp).2) m := rfl
    rw [h1, ih]
    have h2 : skipReplies ((read_response inp).2) (m + b) = skipReplies inp ((m + b) + 1) := rfl
    rw [h2]
    congr 1
    omega

lemma rcptLoop_ok_iff (rs : List (List Char)) : ∀ st : St,
    isOkE (rcptLoop st rs).1 = true ↔
      ∀ i < rs.length, ("250".data).isPrefixOf (replyAt st.inp i) = true := by
  induction rs with
  | nil => intro st; simp [rcptLoop, isOkE]
  | cons r rest ih =>
    intro st
    rw [rcptLoop, send_command_eq, toStr250]
    by_cases h : ("250".data).isPrefixOf (replyAt st.inp 0) = true
    · rw [if_pos h]
      dsimp only
      rw [ih]
      constructor
      · intro hok i hi
        cases i with
        | zero => exact h
        | succ j =>
          have hj := hok j (by simpa using Nat.lt_of_succ_lt_succ hi)
          rw [replyAt_shift] at hj
          simpa [Nat.add_comm] using hj
      · intro hall j hj
        have := hall (j + 1) (by simp only [List.length_cons]; omega)
        rw [replyAt_shift]
        simpa [Nat.add_comm] using this
    · rw [if_neg h]
      dsimp only
      simp only [isOkE, Bool.false_eq_true, false_iff]
      intro hall
      exact h (hall 0 (by simp))

lemma rcptLoop_inp_of_ok (rs : List (List Char)) : ∀ st : St,
    isOkE (rcptLoop st rs).1 = true →
      (rcptLoop st rs).2.inp = skipReplies st.inp rs.length := by
  induction rs with
  | nil => intro st _; simp [rcptLoop, skipReplies]
  | cons r rest ih =>
    intro st hok
    rw [rcptLoop, send_command_eq, toStr250] at hok ⊢
    by_cases h : ("250".data).isPrefixOf (replyAt st.inp 0) = true
    · rw [if_pos h] at hok ⊢
      dsimp only at hok ⊢
      rw [ih _ hok]
      dsimp only
      rw [skipReplies_add]
      congr 1
      simp only [List.length_cons]
      omega
    · rw [if_neg h] at hok
      dsimp only at hok
      simp [isOkE] at hok

lemma rcptLoop_tr (rs : List (List Char)) : ∀ st : St,
    ∃ evs, (rcptLoop st rs).2.tr = st.tr ++ evs ∧
      ∀ e ∈ evs, ∃ l, e = Ev.wrote ('R' :: l) := by
  induction rs with
  | nil => intro st; exact ⟨[], by simp [rcptLoop]⟩
  | cons r rest ih =>
    intro st
    rw [rcptLoop, send_command_eq, toStr250]
    by_cases h : ("250".data).isPrefixOf (replyAt st.inp 0) = true
    · rw [if_pos h]
      dsimp only
      obtain ⟨evs, hevs, hsh⟩ := ih ⟨skipReplies st.inp 1,
        st.tr ++ [Ev.wrote ("RCPT TO:<".data ++ r ++ [('>' : Char)] ++ ['\r', '\n'])]⟩
      refine ⟨Ev.wrote ("RCPT TO:<".data ++ r ++ [('>' : Char)] ++ ['\r', '\n']) :: evs, ?_, ?_⟩
      · rw [hevs]; simp
      · intro e he
        rcases List.mem_cons.mp he with he | he
        · have hR : ("RCPT TO:<".data : List Char) = 'R' :: "CPT TO:<".data := rfl
          exact ⟨"CPT TO:<".data ++ r ++ [('>' : Char)] ++ ['\r', '\n'], by simp [he, hR]⟩
        · exact hsh e he
    · rw [if_neg h]
      dsimp only
      refine ⟨[Ev.wrote ("RCPT TO:<".data ++ r ++ [('>' : Char)] ++ ['\r', '\n'])], rfl, ?_⟩
      intro e he
      simp at he
      have hR : ("RCPT TO:<".data : List Char) = 'R' :: "CPT TO:<".data := rfl
      exact ⟨"CPT TO:<".data ++ r ++ [('>' : Char)] ++ ['\r', '\n'], by simp [he, hR]⟩

lemma rcptLoop_error_cases (rs : List (List Char)) (st : St) (e : List Char) (st4 : St)
    (heq : rcptLoop st rs = (Except.error e, st4)) :
    ¬ ∀ i < rs.length, ("250".data).isPrefixOf (replyAt st.inp i) = true := by
  intro hall
  have h := (rcptLoop_ok_iff rs st).2 hall
  rw [heq] at h
  simp [isOkE] at h

lemma rcptLoop_ok_cases (rs : List (List Char)) (st : St) (a : Unit) (st4 : St)
    (heq : rcptLoop st rs = (Except.ok a, st4)) :
    (∀ i < rs.length, ("250".data).isPrefixOf (replyAt st.inp i) = true) ∧
      st4.inp = skipReplies st.inp rs.length := by
  have hok : isOkE (rcptLoop st rs).1 = true := by rw [heq]; rfl
  refine ⟨(rcptLoop_ok_iff rs st).1 hok, ?_⟩
  have := rcptLoop_inp_of_ok rs st hok
  rw [heq] at this
  exact this

lemma read_response_eq (inp : List Char) :
    read_response inp = (replyAt inp 0, skipReplies inp 1) := rfl

lemma core_ok_iff (mail_from : List Char) (rcpt_to_list : List (List Char))
    (raw_message : List Char) (st : St) :
    isOkE (send_smtp_message_core mail_from rcpt_to_list raw_message st).1 = true ↔
      (("220".data).isPrefixOf (replyAt st.inp 0) = true ∧
       ("250".data).isPrefixOf (replyAt st.inp 1) = true ∧
       ("250".data).isPrefixOf (replyAt st.inp 2) = true ∧
       (∀ i < rcpt_to_list.length,
         ("250".data).isPrefixOf (replyAt st.inp (3 + i)) = true) ∧
       ("354".data).isPrefixOf (replyAt st.inp (3 + rcpt_to_list.length)) = true ∧
       ("250".data).isPrefixOf (replyAt st.inp (4 + rcpt_to_list.length)) = true ∧
       ("221".data).isPrefixOf (replyAt st.inp (5 + rcpt_to_list.length)) = true) := by
  simp only [send_smtp_message_core, read_response_eq]
  by_cases h0 : ("220".data).isPrefixOf (replyAt st.inp 0) = true
  · rw [if_neg (by simp [h0])]
    rw [send_command_eq, toStr250]
    simp only [replyAt_shift, skipReplies_add, Nat.add_zero]
    by_cases h1 : ("250".data).isPrefixOf (replyAt st.inp 1) = true
    · rw [if_pos h1]
      dsimp only
      rw [send_command_eq, toStr250]
      simp only [replyAt_shift, skipReplies_add, Nat.add_zero, Nat.reduceAdd]
      by_cases h2 : ("250".data).isPrefixOf (replyAt st.inp 2) = true
      · rw [if_pos h2]
        dsimp only
        split
        next e st4 heq =>
          dsimp only
          simp only [isOkE, Bool.false_eq_true, false_iff]
          rintro ⟨-, -, -, h4, -⟩
          refine rcptLoop_error_cases _ _ _ _ heq ?_
          intro i hi
          dsimp only
          rw [replyAt_shift]
          exact h4 i hi
        next a st4 heq =>
          obtain ⟨hall, hinp⟩ := rcptLoop_ok_cases _ _ _ _ heq
          dsimp only at hall hinp
          rw [skipReplies_add] at hinp
          rw [send_command_eq, toStr354, hinp, replyAt_shift, Nat.add_zero]
          have hall' : ∀ i < rcpt_to_list.length,
              ("250".data).isPrefixOf (replyAt st.inp (3 + i)) = true := by
            intro i hi
            have := hall i hi
            rwa [replyAt_shift] at this
          by_cases h3 : ("354".data).isPrefixOf (replyAt st.inp (3 + rcpt_to_list.length)) = true
          · rw [if_pos h3]
            dsimp only
            rw [send_command_eq, toStr250]
            dsimp only
            simp only [skipReplies_add, replyAt_shift, Nat.add_zero]
            have e1 : 3 + rcpt_to_list.length + 1 = 4 + rcpt_to_list.length := by omega
            rw [e1]
            by_cases h4 : ("250".data).isPrefixOf (replyAt st.inp (4 + rcpt_to_list.length)) = true
            · rw [if_pos h4]
              dsimp only
              rw [send_command_eq, toStr221]
              dsimp only
              simp only [skipReplies_add, replyAt_shift, Nat.add_zero]
              have e2 : 4 + rcpt_to_list.length + 1 = 5 + rcpt_to_list.length := by omega
              rw [e2]
              by_cases h5 : ("221".data).isPrefixOf (replyAt st.inp (5 + rcpt_to_list.length)) = true
              · rw [if_pos h5]
                dsimp only [isOkE]
                simp only [true_iff]
                exact ⟨h0, h1, h2, hall', h3, h4, h5⟩
              · rw [if_neg h5]
                dsimp only [isOkE]
                simp only [Bool.false_eq_true, false_iff]
                rintro ⟨-, -, -, -, -, -, hc⟩
                exact h5 hc
            · rw [if_neg h4]
              dsimp only [isOkE]
              simp only [Bool.false_eq_true, false_iff]
              rintro ⟨-, -, -, -, -, hc, -⟩
              exact h4 hc
          · rw [if_neg h3]
            dsimp only [isOkE]
            simp only [Bool.false_eq_true, false_iff]
            rintro ⟨-, -, -, -, hc, -, -⟩
            exact h3 hc
      · rw [if_neg h2]
        dsimp only [isOkE]
        simp only [Bool.false_eq_true, false_iff]
        rintro ⟨-, -, hc, -⟩
        exact h2 hc
    · rw [if_neg h1]
      dsimp only [isOkE]
      simp only [Bool.false_eq_true, false_iff]
      rintro ⟨-, hc, -⟩
      exact h1 hc
  · rw [if_pos (by simp [h0])]
    simp only [isOkE, Bool.false_eq_true, false_iff]
    intro hc
    exact h0 hc.1

lemma smtp_ok_iff (mail_from : List Char) (rcpt_to_list : List (List Char))
    (raw_message : List Char) (inp : List Char) :
    (send_smtp_message mail_from rcpt_to_list raw_message true inp).1 = true ↔
      (("220".data).isPrefixOf (replyAt inp 0) = true ∧
       ("250".data).isPrefixOf (replyAt inp 1) = true ∧
       ("250".data).isPrefixOf (replyAt inp 2) = true ∧
       (∀ i < rcpt_to_list.length,
         ("250".data).isPrefixOf (replyAt inp (3 + i)) = true) ∧
       ("354".data).isPrefixOf (replyAt inp (3 + rcpt_to_list.length)) = true ∧
       ("250".data).isPrefixOf (replyAt inp (4 + rcpt_to_list.length)) = true ∧
       ("221".data).isPrefixOf (replyAt inp (5 + rcpt_to_list.length)) = true) := by
  have h := core_ok_iff mail_from rcpt_to_list raw_message { inp := inp, tr := [Ev.opened] }
  simpa [send_smtp_message] using h

/-- C1: with a non-empty reverse-path, recipient list and message content,
the SMTP client session returns Success (`True`) if and only if every
protocol step's reply matches its expected status code: greeting `220`,
EHLO `250`, MAIL FROM `250`, each RCPT TO `250`, DATA `354`, end-of-data
dot `250`, QUIT `221`; on any non-matching reply it returns Failure. -/
theorem smtp_session_success_iff (mail_from : List Char) (rcpt_to_list : List (List Char))
    (raw_message : List Char) (inp : List Char)
    (hmf : mail_from ≠ []) (hrl : rcpt_to_list ≠ []) (hraw : raw_message ≠ []) :
    (send_smtp_message mail_from rcpt_to_list raw_message true inp).1 = true ↔
      (("220".data).isPrefixOf (replyAt inp 0) = true ∧
       ("250".data).isPrefixOf (replyAt inp 1) = true ∧
       ("250".data).isPrefixOf (replyAt inp 2) = true ∧
       (∀ i < rcpt_to_list.length,
         ("250".data).isPrefixOf (replyAt inp (3 + i)) = true) ∧
       ("354".data).isPrefixOf (replyAt inp (3 + rcpt_to_list.length)) = true ∧
       ("250".data).isPrefixOf (replyAt inp (4 + rcpt_to_list.length)) = true ∧
       ("221".data).isPrefixOf (replyAt inp (5 + rcpt_to_list.length)) = true) :=
  smtp_ok_iff mail_from rcpt_to_list raw_message inp

/-- Witness for C1 at the spec's end-to-end scenario: the peer replies
`220, 250, 250, 250, 354, 250, 221` for a one-recipient send. -/
theorem smtp_session_success_iff_witness :
    ("alice@mydomain.com".data : List Char) ≠ [] ∧
    ([("bob@mydomain.com".data)] : List (List Char)) ≠ [] ∧
    ("Hello Bob\n.Signature\n".data : List Char) ≠ [] ∧
    ((send_smtp_message ("alice@mydomain.com".data) [("bob@mydomain.com".data)]
        ("Hello Bob\n.Signature\n".data) true
        ("220 X\r\n250 A\r\n250 B\r\n250 C\r\n354 D\r\n250 E\r\n221 F\r\n".data)).1 = true ↔
      (("220".data).isPrefixOf
          (replyAt ("220 X\r\n250 A\r\n250 B\r\n250 C\r\n354 D\r\n250 E\r\n221 F\r\n".data) 0) = true ∧
       ("250".data).isPrefixOf
          (replyAt ("220 X\r\n250 A\r\n250 B\r\n250 C\r\n354 D\r\n250 E\r\n221 F\r\n".data) 1) = true ∧
       ("250".data).isPrefixOf
          (replyAt ("220 X\r\n250 A\r\n250 B\r\n250 C\r\n354 D\r\n250 E\r\n221 F\r\n".data) 2) = true ∧
       (∀ i < ([("bob@mydomain.com".data)] : List (List Char)).length,
         ("250".data).isPrefixOf
          (replyAt ("220 X\r\n250 A\r\n250 B\r\n250 C\r\n354 D\r\n250 E\r\n221 F\r\n".data) (3 + i)) = true) ∧
       ("354".data).isPrefixOf
          (replyAt ("220 X\r\n250 A\r\n250 B\r\n250 C\r\n354 D\r\n250 E\r\n221 F\r\n".data) 4) = true ∧
       ("250".data).isPrefixOf
          (replyAt ("220 X\r\n250 A\r\n250 B\r\n250 C\r\n354 D\r\n250 E\r\n221 F\r\n".data) 5) = true ∧
       ("221".data).isPrefixOf
          (replyAt ("220 X\r\n250 A\r\n250 B\r\n250 C\r\n354 D\r\n250 E\r\n221 F\r\n".data) 6) = true)) :=
  ⟨by decide, by decide, by decide,
    smtp_session_success_iff ("alice@mydomain.com".data) [("bob@mydomain.com".data)]
      ("Hello Bob\n.Signature\n".data)
      ("220 X\r\n250 A\r\n250 B\r\n250 C\r\n354 D\r\n250 E\r\n221 F\r\n".data)
      (by decide) (by decide) (by decide)⟩

/-- C6: if the greeting (the first reply read after the connection opens)
does not start with `220`, the session returns Failure, the internal
exception carries the greeting message, and nothing is ever written to the
transport: the socket trace is exactly open-then-close. -/
theorem smtp_greeting_failure (mail_from : List Char) (rcpt_to_list : List (List Char))
    (raw_message : List Char) (inp : List Char)
    (h : ("220".data).isPrefixOf (replyAt inp 0) = false) :
    (send_smtp_message mail_from rcpt_to_list raw_message true inp).1 = false ∧
    (send_smtp_message mail_from rcpt_to_list raw_message true inp).2 = [Ev.opened, Ev.closed] ∧
    (send_smtp_message_core mail_from rcpt_to_list raw_message
        { inp := inp, tr := [Ev.opened] }).1 =
      Except.error ("Did not receive 220 initial greeting.".data) := by
  have hn : ¬ (("220".data).isPrefixOf (replyAt inp 0) = true) := by simp [h]
  refine ⟨?_, ?_, ?_⟩ <;>
    simp [send_smtp_message, send_smtp_message_core, read_response_eq, hn, isOkE]

/-- Witness for C6: greeting `500`. -/
theorem smtp_greeting_failure_witness :
    ("220".data).isPrefixOf (replyAt ("500 no\r\n".data) 0) = false ∧
    (send_smtp_message ("a@x".data) [("b@x".data)] ("hi\n".data) true ("500 no\r\n".data)).1 = false ∧
    (send_smtp_message ("a@x".data) [("b@x".data)] ("hi\n".data) true ("500 no\r\n".data)).2 =
      [Ev.opened, Ev.closed] ∧
    (send_smtp_message_core ("a@x".data) [("b@x".data)] ("hi\n".data)
        { inp := "500 no\r\n".data, tr := [Ev.opened] }).1 =
      Except.error ("Did not receive 220 initial greeting.".data) :=
  ⟨by decide,
   (smtp_greeting_failure ("a@x".data) [("b@x".data)] ("hi\n".data) ("500 no\r\n".data)
     (by decide)).1,
   (smtp_greeting_failure ("a@x".data) [("b@x".data)] ("hi\n".data) ("500 no\r\n".data)
     (by decide)).2.1,
   (smtp_greeting_failure ("a@x".data) [("b@x".data)] ("hi\n".data) ("500 no\r\n".data)
     (by decide)).2.2⟩

lemma rcptLoop_tr_cases (rs : List (List Char)) (st : St) (p : Except (List Char) Unit × St)
    (heq : rcptLoop st rs = p) :
    ∃ evs, p.2.tr = st.tr ++ evs ∧ ∀ e ∈ evs, ∃ l, e = Ev.wrote ('R' :: l) := by
  obtain ⟨evs, h1, h2⟩ := rcptLoop_tr rs st
  rw [heq] at h1
  exact ⟨evs, h1, h2⟩

/-- C7: if some RCPT TO reply does not start with `250` (while greeting,
EHLO and MAIL FROM were accepted), the session returns Failure and the
DATA command is never written to the transport: a single rejected
recipient aborts the whole exchange before the message content is sent. -/
theorem smtp_rcpt_failure (mail_from : List Char) (rcpt_to_list : List (List Char))
    (raw_message : List Char) (inp : List Char) (i : Nat)
    (h0 : ("220".data).isPrefixOf (replyAt inp 0) = true)
    (h1 : ("250".data).isPrefixOf (replyAt inp 1) = true)
    (h2 : ("250".data).isPrefixOf (replyAt inp 2) = true)
    (hi : i < rcpt_to_list.length)
    (hbad : ("250".data).isPrefixOf (replyAt inp (3 + i)) = false) :
    (send_smtp_message mail_from rcpt_to_list raw_message true inp).1 = false ∧
    Ev.wrote ("DATA".data ++ ['\r', '\n']) ∉
      (send_smtp_message mail_from rcpt_to_list raw_message true inp).2 := by
  simp only [send_smtp_message, if_true]
  simp only [send_smtp_message_core, read_response_eq]
  rw [if_neg (by simp [h0])]
  rw [send_command_eq, toStr250]
  dsimp only
  simp only [skipReplies_add, replyAt_shift, Nat.add_zero, Nat.reduceAdd]
  rw [if_pos h1]
  dsimp only
  rw [send_command_eq, toStr250]
  dsimp only
  simp only [skipReplies_add, replyAt_shift, Nat.add_zero, Nat.reduceAdd]
  rw [if_pos h2]
  dsimp only
  split
  next e st4 heq =>
    refine ⟨rfl, ?_⟩
    obtain ⟨evs, htr, hsh⟩ := rcptLoop_tr_cases _ _ _ heq
    dsimp only at htr
    dsimp only
    rw [htr]
    intro hmem
    rcases List.mem_append.mp hmem with hmem | hmem
    · rcases List.mem_append.mp hmem with hmem | hmem
      · simp only [List.mem_append, List.mem_singleton] at hmem
        rcases hmem with (hm | hm) | hm
        · simp at hm
        · simp [APP_DOMAIN] at hm
        · simp at hm
      · obtain ⟨l, hl⟩ := hsh _ hmem
        simp at hl
    · simp at hmem
  next a st4 heq =>
    exfalso
    obtain ⟨hall, -⟩ := rcptLoop_ok_cases _ _ _ _ heq
    dsimp only at hall
    have hgood := hall i hi
    rw [replyAt_shift] at hgood
    rw [hgood] at hbad
    simp at hbad

/-- Witness for C7 at the spec's scenario: replies `220, 250, 250, 550`
for a one-recipient send. -/
theorem smtp_rcpt_failure_witness :
    ("220".data).isPrefixOf (replyAt ("220 X\r\n250 A\r\n250 B\r\n550 mailbox unavailable\r\n".data) 0) = true ∧
    (0 : Nat) < ([("bob@mydomain.com".data)] : List (List Char)).length ∧
    ("250".data).isPrefixOf (replyAt ("220 X\r\n250 A\r\n250 B\r\n550 mailbox unavailable\r\n".data) 3) = false ∧
    (send_smtp_message ("alice@mydomain.com".data) [("bob@mydomain.com".data)] ("Hi\n".data) true
      ("220 X\r\n250 A\r\n250 B\r\n550 mailbox unavailable\r\n".data)).1 = false ∧
    Ev.wrote ("DATA".data ++ ['\r', '\n']) ∉
      (send_smtp_message ("alice@mydomain.com".data) [("bob@mydomain.com".data)] ("Hi\n".data) true
        ("220 X\r\n250 A\r\n250 B\r\n550 mailbox unavailable\r\n".data)).2 :=
  ⟨by decide, by decide, by decide,
   (smtp_rcpt_failure ("alice@mydomain.com".data) [("bob@mydomain.com".data)] ("Hi\n".data)
     ("220 X\r\n250 A\r\n250 B\r\n550 mailbox unavailable\r\n".data) 0
     (by decide) (by decide) (by decide) (by decide) (by decide)).1,
   (smtp_rcpt_failure ("alice@mydomain.com".data) [("bob@mydomain.com".data)] ("Hi\n".data)
     ("220 X\r\n250 A\r\n250 B\r\n550 mailbox unavailable\r\n".data) 0
     (by decide) (by decide) (by decide) (by decide) (by decide)).2⟩

/-- C2: the content transformation of `"Hello Bob\n.Signature\n"`
(normalize line endings, dot-stuff, append trailing CRLF) produces exactly
`"Hello Bob\r\n..Signature\r\n..."` with the doubled leading dot, and in a
successful exchange that payload is written right after the DATA command,
followed by the lone-dot terminator `".\r\n"` as a separate command. -/
theorem smtp_data_payload_scenario :
    transformContent ("Hello Bob\n.Signature\n".data)
        = ("Hello Bob\r\n..Signature\r\n\r\n".data) ∧
    send_smtp_message ("alice@mydomain.com".data) [("bob@mydomain.com".data)]
        ("Hello Bob\n.Signature\n".data) true
        ("220 X\r\n250 A\r\n250 B\r\n250 C\r\n354 D\r\n250 E\r\n221 F\r\n".data)
      = (true,
         [Ev.opened,
          Ev.wrote ("EHLO mydomain.com\r\n".data),
          Ev.wrote ("MAIL FROM:<alice@mydomain.com>\r\n".data),
          Ev.wrote ("RCPT TO:<bob@mydomain.com>\r\n".data),
          Ev.wrote ("DATA\r\n".data),
          Ev.wrote ("Hello Bob\r\n..Signature\r\n\r\n".data),
          Ev.wrote (".\r\n".data),
          Ev.wrote ("QUIT\r\n".data),
          Ev.closed]) := by
  constructor
  · decide
  · decide

/-- C3 counterexample: the peer closes the connection during the seventh
reply, after sending only `221` with no terminating CRLF; the read returns
the partial bytes, the loose prefix match accepts them, and the session
returns Success — not Failure(connection-error) as the claim states. -/
theorem smtp_midreply_close_not_failure :
    (send_smtp_message ("a@x".data) [("b@x".data)] ("hi\n".data) true
      ("220 h\r\n250 a\r\n250 b\r\n250 c\r\n354 d\r\n250 e\r\n221".data)).1 = true ∧
    (readRawLoop (skipReplies ("220 h\r\n250 a\r\n250 b\r\n250 c\r\n354 d\r\n250 e\r\n221".data) 6) []).2 = [] ∧
    endsCRLF (readRawLoop (skipReplies ("220 h\r\n250 a\r\n250 b\r\n250 c\r\n354 d\r\n250 e\r\n221".data) 6) []).1 = false := by
  refine ⟨?_, ?_, ?_⟩ <;> decide

/-- C3 as amended: when a transport read returns no further bytes before a
terminating CRLF, the trimmed partial bytes are compared like a normal
reply; in particular if the stream is exhausted right after the greeting
(the EHLO reply read returns no bytes), the comparison fails and the
session returns Failure — as a plain boolean, with no exception escaping
and no distinct connection-error reason. -/
theorem smtp_closed_after_greeting_fails (mail_from : List Char)
    (rcpt_to_list : List (List Char)) (raw_message : List Char) (inp : List Char)
    (h : skipReplies inp 1 = []) :
    (send_smtp_message mail_from rcpt_to_list raw_message true inp).1 = false := by
  have h2 : replyAt inp 1 = [] := by
    unfold replyAt
    rw [h]
    rfl
  cases hb : (send_smtp_message mail_from rcpt_to_list raw_message true inp).1 with
  | false => rfl
  | true =>
    have hx := ((smtp_ok_iff mail_from rcpt_to_list raw_message inp).1 hb).2.1
    rw [h2] at hx
    exact absurd hx (by decide)

/-- Witness for the amended C3: the stream holds exactly the greeting. -/
theorem smtp_closed_after_greeting_fails_witness :
    skipReplies ("220 hi\r\n".data) 1 = [] ∧
    (send_smtp_message ("a@x".data) [("b@x".data)] ("hi\n".data) true ("220 hi\r\n".data)).1 = false :=
  ⟨by decide,
   smtp_closed_after_greeting_fails ("a@x".data) [("b@x".data)] ("hi\n".data)
     ("220 hi\r\n".data) (by decide)⟩

/-- C9: on every exit path of the session, if the transport connection was
opened (it appears in the socket trace) then the last socket event is the
close: the `finally` clause closes the socket before the outcome reaches
the caller, and when the connect itself fails nothing is opened at all. -/
theorem smtp_socket_closed_on_exit (mail_from : List Char) (rcpt_to_list : List (List Char))
    (raw_message : List Char) (connectOk : Bool) (inp : List Char)
    (h : Ev.opened ∈ (send_smtp_message mail_from rcpt_to_list raw_message connectOk inp).2) :
    (send_smtp_message mail_from rcpt_to_list raw_message connectOk inp).2.getLast?
      = some Ev.closed := by
  cases connectOk with
  | false => simp [send_smtp_message] at h
  | true =>
    simp only [send_smtp_message, if_true]
    exact List.getLast?_concat _

/-- Witness for C9: a failing exchange (greeting rejected) still closes
the socket last. -/
theorem smtp_socket_closed_on_exit_witness :
    Ev.opened ∈ (send_smtp_message ("a@x".data) [("b@x".data)] ("hi\n".data) true ("500 no\r\n".data)).2 ∧
    (send_smtp_message ("a@x".data) [("b@x".data)] ("hi\n".data) true ("500 no\r\n".data)).2.getLast?
      = some Ev.closed :=
  ⟨by decide,
   smtp_socket_closed_on_exit ("a@x".data) [("b@x".data)] ("hi\n".data) true ("500 no\r\n".data)
     (by decide)⟩

lemma lfToCrlf_head (s : List Char) : ∀ t, lfToCrlf s ≠ '\n' :: t := by
  cases s with
  | nil => intro t; simp [lfToCrlf]
  | cons c rest =>
    intro t
    by_cases hc : c = '\n'
    · subst hc
      rw [lfToCrlf.eq_1]
      simp
    · rw [lfToCrlf.eq_2 c rest (fun h => hc h)]
      simp [hc]

lemma noBareLf_cons (c : Char) (l : List Char) (hc1 : c ≠ '\r') (hc2 : c ≠ '\n') :
    noBareLf (c :: l) = noBareLf l :=
  noBareLf.eq_3 c l (fun _ hc _ => hc1 hc) (fun hc => hc2 hc)

lemma noBareLf_lfToCrlf (s : List Char) : noBareLf (lfToCrlf s) = true := by
  induction s using lfToCrlf.induct with
  | case1 rest ih => rw [lfToCrlf.eq_1, noBareLf.eq_1]; exact ih
  | case2 c rest h ih =>
    rw [lfToCrlf.eq_2 c rest h]
    by_cases hr : c = '\r'
    · subst hr
      rcases hl : lfToCrlf rest with _ | ⟨d, l'⟩
      · rfl
      · by_cases hd : d = '\n'
        · exact absurd hl (by rw [hd]; exact lfToCrlf_head rest l')
        · rw [noBareLf.eq_3 '\r' (d :: l')
            (fun r1 _ hdl => hd (List.cons.inj hdl).1)
            (fun hh => absurd hh (by decide))]
          rw [← hl]
          exact ih
    · rw [noBareLf_cons c _ hr (fun hh => h hh)]
      exact ih
  | case3 => rfl

lemma noCr_crlfToLf (s : List Char) (h : noLoneCr s = true) :
    (crlfToLf s).all (fun c => c ≠ '\r') = true := by
  induction s using crlfToLf.induct with
  | case1 rest ih =>
    rw [noLoneCr.eq_1] at h
    rw [crlfToLf.eq_1]
    simpa using ih h
  | case2 c rest hside ih =>
    rw [crlfToLf.eq_2 c rest hside]
    by_cases hc : c = '\r'
    · subst hc
      rw [noLoneCr.eq_2 rest (fun r1 hr1 => hside r1 rfl hr1)] at h
      exact absurd h (by simp)
    · rw [noLoneCr.eq_3 c rest hside (fun hh => hc hh)] at h
      simpa [hc] using ih h
  | case3 => rfl

lemma crlfOnly_lfToCrlf (s : List Char) (h : s.all (fun c => c ≠ '\r') = true) :
    crlfOnly (lfToCrlf s) = true := by
  induction s using lfToCrlf.induct with
  | case1 rest ih =>
    rw [lfToCrlf.eq_1, crlfOnly.eq_1]
    simp only [List.all_cons, Bool.and_eq_true] at h
    exact ih h.2
  | case2 c rest hside ih =>
    rw [lfToCrlf.eq_2 c rest hside]
    simp only [List.all_cons, Bool.and_eq_true] at h
    have hc : c ≠ '\r' := by simpa using h.1
    have hn : c ≠ '\n' := fun hh => hside hh
    rcases hl : lfToCrlf rest with _ | ⟨d, l'⟩
    · rw [crlfOnly.eq_4 c [] (fun r1 hcr _ => hc hcr) (fun hh => hc hh) (fun hh => hn hh)]
      rfl
    · rw [crlfOnly.eq_4 c (d :: l') (fun r1 hcr _ => hc hcr) (fun hh => hc hh) (fun hh => hn hh)]
      rw [← hl]
      exact ih h.2
  | case3 => rfl

/-- C4 counterexample: for the input `"a\rb"` (classic-Mac lone-CR line
break) the normalization `replace('\r\n','\n').replace('\n','\r\n')` is
the identity, so the output contains a carriage return that is not part
of any CRLF pair — the output's line endings are not uniformly CRLF. -/
theorem normalize_lone_cr_counterexample :
    normalizeNewlines ("a\rb".data) = ("a\rb".data) ∧
    crlfOnly (normalizeNewlines ("a\rb".data)) = false := by
  refine ⟨?_, ?_⟩ <;> decide

/-- C4 as amended: for every input containing no lone carriage return,
the normalization yields output whose line-break characters occur only as
part of CRLF pairs; lone CRs in arbitrary input pass through unchanged
(only the line-feed side of the property holds unconditionally, see
`noBareLf_normalize`). -/
theorem normalize_crlf_only (raw_message : List Char) (h : noLoneCr raw_message = true) :
    crlfOnly (normalizeNewlines raw_message) = true :=
  crlfOnly_lfToCrlf _ (noCr_crlfToLf _ h)

/-- For arbitrary input, every line feed of the normalized output is part
of a CRLF pair. -/
theorem noBareLf_normalize (raw_message : List Char) :
    noBareLf (normalizeNewlines raw_message) = true :=
  noBareLf_lfToCrlf _

/-- Witness for the amended C4 on a mixed LF / CRLF input. -/
theorem normalize_crlf_only_witness :
    noLoneCr ("a\nb\r\nc".data) = true ∧
    crlfOnly (normalizeNewlines ("a\nb\r\nc".data)) = true :=
  ⟨by decide, normalize_crlf_only ("a\nb\r\nc".data) (by decide)⟩

lemma destuff_stuff (l : List Char) : destuffLine (stuffLine l) = l := by
  unfold stuffLine destuffLine
  by_cases hp : (['.'] : List Char).isPrefixOf l = true
  · rw [if_pos hp]
    rw [if_pos (by simpa [List.isPrefixOf] using hp)]
    rfl
  · rw [if_neg hp]
    rcases l with _ | ⟨c, t⟩
    · rw [if_neg (by simp [List.isPrefixOf])]
    · have hc : ('.' == c) = false := by
        simp only [List.isPrefixOf, Bool.and_true, Bool.and_eq_true] at hp
        simpa using hp
      rw [if_neg (by simp [List.isPrefixOf, hc])]

/-- C8: dot-stuffing prepends exactly one `.` to every line starting with
`.` and leaves other lines unchanged, and destuffing (removing one
leading `.` from every line starting with `..`) recovers every original
line of the normalized message: the stuffing/destuffing pair round-trips
on the message's lines. -/
theorem stuff_destuff_roundtrip (raw_message : List Char) :
    ((splitCRLF (normalizeNewlines raw_message)).map stuffLine).map destuffLine
      = splitCRLF (normalizeNewlines raw_message) := by
  rw [List.map_map]
  have h : destuffLine ∘ stuffLine = id := funext destuff_stuff
  rw [h, List.map_id]

lemma noCRLFin_mid (p t : List Char) : noCRLFin (p ++ '\r' :: '\n' :: t) = false := by
  induction p with
  | nil => rfl
  | cons c p' ih =>
    by_cases hc : c = '\r'
    · subst hc
      rcases p' with _ | ⟨d, p''⟩
      · rfl
      · by_cases hd : d = '\n'
        · subst hd; rfl
        · rw [List.cons_append,
            noCRLFin.eq_2 '\r' ((d :: p'') ++ '\r' :: '\n' :: t)
              (fun r1 _ hdl => hd (List.cons.inj hdl).1)]
          exact ih
    · rw [List.cons_append]
      rcases hrest : p' ++ '\r' :: '\n' :: t with _ | ⟨e, t'⟩
      · exact absurd hrest (by simp)
      · rw [noCRLFin.eq_2 c (e :: t') (fun r1 hcr _ => hc hcr)]
        rw [← hrest]
        exact ih

lemma endsCRLF_false_of_noCRLFin (l t : List Char) (h : noCRLFin (l ++ t) = true) :
    endsCRLF l = false := by
  cases hv : endsCRLF l with
  | false => rfl
  | true =>
    exfalso
    obtain ⟨p, hp⟩ := List.isSuffixOf_iff_suffix.1 hv
    rw [← hp, List.append_assoc] at h
    simp only [List.cons_append, List.nil_append] at h
    rw [noCRLFin_mid] at h
    exact Bool.false_ne_true h

lemma readRawLoop_no_crlf (inp : List Char) : ∀ data : List Char,
    noCRLFin (data ++ inp) = true → readRawLoop inp data = (data ++ inp, []) := by
  induction inp with
  | nil => intro data _; simp [readRawLoop]
  | cons c rest ih =>
    intro data h
    rw [readRawLoop]
    have hassoc : (data ++ [c]) ++ rest = data ++ c :: rest := by simp
    rw [if_neg ?_]
    · rw [ih (data ++ [c]) (by rw [hassoc]; exact h), hassoc]
    · rw [endsCRLF_false_of_noCRLFin (data ++ [c]) rest (by rw [hassoc]; exact h)]
      simp

lemma endsCRLF_append_crlf (x : List Char) : endsCRLF (x ++ ['\r', '\n']) = true :=
  List.isSuffixOf_iff_suffix.2 ⟨x, rfl⟩

lemma readRawLoop_stop (p : List Char) : ∀ (s data : List Char),
    noCRLFin (data ++ p ++ ['\r']) = true →
    readRawLoop (p ++ '\r' :: '\n' :: s) data = (data ++ p ++ ['\r', '\n'], s) := by
  induction p with
  | nil =>
    intro s data h
    rw [List.nil_append, readRawLoop]
    rw [if_neg ?hcr]
    case hcr =>
      rw [endsCRLF_false_of_noCRLFin (data ++ ['\r']) []
        (by simpa using h)]
      simp
    rw [readRawLoop]
    rw [if_pos (by
      rw [show (data ++ ['\r']) ++ ['\n'] = data ++ ['\r', '\n'] by simp]
      exact endsCRLF_append_crlf data)]
    simp
  | cons c p' ih =>
    intro s data h
    rw [List.cons_append, readRawLoop]
    rw [if_neg ?hc2]
    case hc2 =>
      rw [endsCRLF_false_of_noCRLFin (data ++ [c]) (p' ++ ['\r'])
        (by rw [show (data ++ [c]) ++ (p' ++ ['\r']) = data ++ (c :: p') ++ ['\r'] by simp]
            exact h)]
      simp
    rw [ih s (data ++ [c])
      (by rw [show (data ++ [c]) ++ p' ++ ['\r'] = data ++ (c :: p') ++ ['\r'] by simp]
          exact h)]
    simp

lemma noCRLFin_snoc_cr (p : List Char) (h : noCRLFin p = true) :
    noCRLFin (p ++ ['\r']) = true := by
  induction p with
  | nil => decide
  | cons c p' ih =>
    by_cases hc : c = '\r'
    · subst hc
      rcases p' with _ | ⟨d, p''⟩
      · decide
      · by_cases hd : d = '\n'
        · subst hd
          rw [noCRLFin.eq_1] at h
          exact absurd h (by simp)
        · rw [noCRLFin.eq_2 '\r' (d :: p'') (fun r1 _ hdl => hd (List.cons.inj hdl).1)] at h
          rw [List.cons_append,
            noCRLFin.eq_2 '\r' ((d :: p'') ++ ['\r'])
              (fun r1 _ hdl => hd (List.cons.inj hdl).1)]
          exact ih h
    · rw [noCRLFin.eq_2 c p' (fun r1 hcr _ => hc hcr)] at h
      rcases hrest : p' ++ ['\r'] with _ | ⟨e, t'⟩
      · exact absurd hrest (by simp)
      · rw [List.cons_append, hrest, noCRLFin.eq_2 c (e :: t') (fun r1 hcr _ => hc hcr), ← hrest]
        exact ih h

lemma read_response_split (p s : List Char) (hno : noCRLFin p = true) :
    read_response (p ++ '\r' :: '\n' :: s) = (stripWs (p ++ ['\r', '\n']), s) := by
  unfold read_response
  rw [show readRawLoop (p ++ '\r' :: '\n' :: s) [] = ([] ++ p ++ ['\r', '\n'], s) from
    readRawLoop_stop p s [] (by simpa using noCRLFin_snoc_cr p hno)]
  simp

/-- C5: a reply is accepted exactly when the bytes accumulated up to and
including the first CRLF, after trimming leading and trailing whitespace,
start with the step's expected code's decimal digits — a loose prefix
match, not exact equality. -/
theorem reply_accepted_iff_trimmed_code_match (st : St) (cmd : List Char) (expected_code : Nat)
    (p s : List Char) (hsplit : st.inp = p ++ '\r' :: '\n' :: s) (hno : noCRLFin p = true) :
    isOkE (send_command st cmd expected_code).1
      = ((toString expected_code).data).isPrefixOf (stripWs (p ++ ['\r', '\n'])) := by
  rw [send_command_eq]
  have hr : replyAt st.inp 0 = stripWs (p ++ ['\r', '\n']) := by
    have h0 : replyAt st.inp 0 = (read_response st.inp).1 := rfl
    rw [h0, hsplit, read_response_split p s hno]
  rw [hr]
  by_cases hc : ((toString expected_code).data).isPrefixOf (stripWs (p ++ ['\r', '\n'])) = true
  · rw [if_pos hc, hc]; rfl
  · rw [if_neg hc]
    have hf : ((toString expected_code).data).isPrefixOf (stripWs (p ++ ['\r', '\n'])) = false := by
      simp only [Bool.not_eq_true] at hc
      exact hc
    rw [hf]; rfl

/-- Witness for C5: a trimmed reply beginning `2501` is accepted where
`250` is expected (loose prefix match). -/
theorem reply_accepted_iff_trimmed_code_match_witness :
    noCRLFin ("2501 Extended".data) = true ∧
    isOkE (send_command { inp := "2501 Extended".data ++ '\r' :: '\n' :: [], tr := [] }
      ("EHLO mydomain.com".data) 250).1 = true :=
  ⟨by decide, by
    rw [reply_accepted_iff_trimmed_code_match _ _ _ ("2501 Extended".data) [] rfl (by decide)]
    decide⟩

lemma splitCRLF_ne_nil (s : List Char) : splitCRLF s ≠ [] := by
  induction s using splitCRLF.induct with
  | case1 rest ih => rw [splitCRLF.eq_1]; simp
  | case2 c rest hside l ls hspl ih => rw [splitCRLF.eq_2 c rest hside, hspl]; simp
  | case3 c rest hside hspl ih => rw [splitCRLF.eq_2 c rest hside, hspl]; simp
  | case4 => rw [splitCRLF.eq_3]; simp

lemma splitCRLF_single (l : List Char) (h : noCRLFin l = true) : splitCRLF l = [l] := by
  induction l using splitCRLF.induct with
  | case1 rest ih =>
    rw [noCRLFin.eq_1] at h
    exact absurd h (by simp)
  | case2 c rest hside l ls hspl ih =>
    have h' : noCRLFin rest = true := by
      rw [noCRLFin.eq_2 c rest (fun r1 hcr hr => hside r1 hcr hr)] at h
      exact h
    rw [splitCRLF.eq_2 c rest hside, ih h']
  | case3 c rest hside hspl ih =>
    exact absurd hspl (splitCRLF_ne_nil rest)
  | case4 => rw [splitCRLF.eq_3]

lemma splitCRLF_append (l : List Char) (rest : List Char) (h : noCRLFin l = true) :
    splitCRLF (l ++ '\r' :: '\n' :: rest) = l :: splitCRLF rest := by
  induction l with
  | nil => rw [List.nil_append, splitCRLF.eq_1]
  | cons c l' ih =>
    by_cases hc : c = '\r'
    · subst hc
      rcases l' with _ | ⟨d, l''⟩
      · rw [List.cons_append, List.nil_append,
          splitCRLF.eq_2 '\r' ('\r' :: '\n' :: rest)
            (fun r1 _ hdl => absurd (List.cons.inj hdl).1 (by decide)),
          splitCRLF.eq_1]
      · by_cases hd : d = '\n'
        · subst hd
          rw [noCRLFin.eq_1] at h
          exact absurd h (by simp)
        · have h' : noCRLFin (d :: l'') = true := by
            rw [noCRLFin.eq_2 '\r' (d :: l'')
              (fun r1 _ hdl => hd (List.cons.inj hdl).1)] at h
            exact h
          rw [List.cons_append,
            splitCRLF.eq_2 '\r' ((d :: l'') ++ '\r' :: '\n' :: rest)
              (fun r1 _ hdl => hd (List.cons.inj hdl).1),
            ih h']
    · have h' : noCRLFin l' = true := by
        rw [noCRLFin.eq_2 c l' (fun r1 hcr _ => hc hcr)] at h
        exact h
      rcases hrest : l' ++ '\r' :: '\n' :: rest with _ | ⟨e, t'⟩
      · exact absurd hrest (by simp)
      · rw [List.cons_append, hrest,
          splitCRLF.eq_2 c (e :: t') (fun r1 hcr _ => hc hcr), ← hrest, ih h']

lemma splitCRLF_head (s : List Char) : ∀ d x xs, splitCRLF s = (d :: x) :: xs →
    ∃ t, s = d :: t := by
  induction s using splitCRLF.induct with
  | case1 rest ih =>
    intro d x xs hs
    rw [splitCRLF.eq_1] at hs
    exact absurd (List.cons.inj hs).1 (by simp)
  | case2 c rest hside l ls hspl ih =>
    intro d x xs hs
    rw [splitCRLF.eq_2 c rest hside, hspl] at hs
    exact ⟨rest, by rw [(List.cons.inj (List.cons.inj hs).1).1]⟩
  | case3 c rest hside hspl ih =>
    intro d x xs hs
    rw [splitCRLF.eq_2 c rest hside, hspl] at hs
    exact ⟨rest, by rw [(List.cons.inj (List.cons.inj hs).1).1]⟩
  | case4 =>
    intro d x xs hs
    rw [splitCRLF.eq_3] at hs
    exact absurd (List.cons.inj hs).1 (by simp)

lemma splitCRLF_lines_noCRLFin (s : List Char) :
    ∀ l ∈ splitCRLF s, noCRLFin l = true := by
  induction s using splitCRLF.induct with
  | case1 rest ih =>
    intro l hl
    rw [splitCRLF.eq_1] at hl
    rcases List.mem_cons.mp hl with hl | hl
    · rw [hl]; rfl
    · exact ih l hl
  | case2 c rest hside l0 ls hspl ih =>
    intro l hl
    rw [splitCRLF.eq_2 c rest hside, hspl] at hl
    rcases List.mem_cons.mp hl with hl | hl
    · subst hl
      have hl0 : noCRLFin l0 = true := ih l0 (by rw [hspl]; exact List.mem_cons_self _ _)
      rcases l0 with _ | ⟨d, l0'⟩
      · rw [noCRLFin.eq_2 c [] (fun r1 _ hr => by simp at hr)]
        rfl
      · by_cases hcd : c = '\r' ∧ d = '\n'
        · obtain ⟨t, ht⟩ := splitCRLF_head rest d l0' ls hspl
          have hr : rest = '\n' :: t := by rw [ht, hcd.2]
          exact (hside t hcd.1 hr).elim
        · rw [noCRLFin.eq_2 c (d :: l0') (fun r1 hcr hdl =>
            hcd ⟨hcr, (List.cons.inj hdl).1⟩)]
          exact hl0
    · exact ih l (by rw [hspl]; exact List.mem_cons_of_mem _ hl)
  | case3 c rest hside hspl ih =>
    intro l hl
    rw [splitCRLF.eq_2 c rest hside, hspl] at hl
    rcases List.mem_cons.mp hl with hl | hl
    · subst hl
      rw [noCRLFin.eq_2 c [] (fun r1 _ hr => by simp at hr)]
      rfl
    · simp at hl
  | case4 =>
    intro l hl
    rw [splitCRLF.eq_3] at hl
    rcases List.mem_cons.mp hl with hl | hl
    · rw [hl]; rfl
    · simp at hl

lemma noCRLFin_stuffLine (l : List Char) (h : noCRLFin l = true) :
    noCRLFin (stuffLine l) = true := by
  unfold stuffLine
  by_cases hp : (['.'] : List Char).isPrefixOf l = true
  · rw [if_pos hp]
    rw [noCRLFin.eq_2 '.' l (fun r1 hcr _ => absurd hcr (by decide))]
    exact h
  · rw [if_neg hp]
    exact h

lemma joinCRLF_cons_cons (l l2 : List Char) (ls : List (List Char)) :
    joinCRLF (l :: l2 :: ls) = l ++ '\r' :: '\n' :: joinCRLF (l2 :: ls) := rfl

lemma joinCRLF_snoc_nil (ls : List (List Char)) (h : ls ≠ []) :
    joinCRLF (ls ++ [[]]) = joinCRLF ls ++ ['\r', '\n'] := by
  induction ls with
  | nil => exact absurd rfl h
  | cons l ls' ih =>
    rcases ls' with _ | ⟨l2, ls''⟩
    · rfl
    · have h2 : joinCRLF ((l :: l2 :: ls'') ++ [[]])
          = l ++ '\r' :: '\n' :: joinCRLF ((l2 :: ls'') ++ [[]]) := rfl
      rw [h2, ih (by simp), joinCRLF_cons_cons]
      simp

lemma splitCRLF_joinCRLF (ls : List (List Char)) (hne : ls ≠ [])
    (hall : ∀ l ∈ ls, noCRLFin l = true) : splitCRLF (joinCRLF ls) = ls := by
  induction ls with
  | nil => exact absurd rfl hne
  | cons l ls' ih =>
    rcases ls' with _ | ⟨l2, ls''⟩
    · rw [show joinCRLF [l] = l from rfl, splitCRLF_single l (hall l (List.mem_cons_self _ _))]
    · rw [joinCRLF_cons_cons, splitCRLF_append l _ (hall l (List.mem_cons_self _ _)),
        ih (by simp) (fun m hm => hall m (List.mem_cons_of_mem _ hm))]

lemma splitCRLF_dotStuff (d : List Char) :
    splitCRLF (dotStuff d) = (splitCRLF d).map stuffLine ++ [[]] := by
  unfold dotStuff
  rw [← joinCRLF_snoc_nil _ (by
    intro hmap
    exact splitCRLF_ne_nil d (List.map_eq_nil_iff.mp hmap))]
  refine splitCRLF_joinCRLF _ (by simp) ?_
  intro l hl
  rcases List.mem_append.mp hl with hl | hl
  · obtain ⟨m, hm, hml⟩ := List.mem_map.mp hl
    rw [← hml]
    exact noCRLFin_stuffLine m (splitCRLF_lines_noCRLFin d m hm)
  · simp at hl
    rw [hl]
    rfl

/-- C10: every line of the transformed DATA payload (the payload split on
CRLF) either does not begin with `.` or begins with `..`; in particular no
payload line is the lone dot, so the separately sent `.` terminator cannot
be preceded by a payload line the peer would read as end-of-data. -/
theorem payload_line_dot_invariant (raw_message : List Char) (l : List Char)
    (hl : l ∈ splitCRLF (transformContent raw_message)) :
    ((['.'] : List Char).isPrefixOf l = false ∨
      (['.', '.'] : List Char).isPrefixOf l = true) ∧ l ≠ ['.'] := by
  rw [transformContent, splitCRLF_dotStuff] at hl
  rcases List.mem_append.mp hl with hm | hm
  · obtain ⟨m, hmem, hstuff⟩ := List.mem_map.mp hm
    rw [← hstuff]
    unfold stuffLine
    by_cases hp : (['.'] : List Char).isPrefixOf m = true
    · rw [if_pos hp]
      refine ⟨Or.inr ?_, ?_⟩
      · simpa [List.isPrefixOf] using hp
      · intro heq
        rw [(List.cons.inj heq).2] at hp
        exact absurd hp (by decide)
    · rw [if_neg hp]
      refine ⟨Or.inl ?_, ?_⟩
      · simp only [Bool.not_eq_true] at hp
        exact hp
      · intro heq
        rw [heq] at hp
        exact hp (by decide)
  · simp only [List.mem_singleton] at hm
    rw [hm]
    exact ⟨Or.inl (by decide), by decide⟩

/-- Witness for C10 on the payload of `"x\n.y\n"`, whose stuffed line
`..y` begins with the doubled dot. -/
theorem payload_line_dot_invariant_witness :
    (("..y".data : List Char) ∈ splitCRLF (transformContent ("x\n.y\n".data))) ∧
    (((['.'] : List Char).isPrefixOf ("..y".data) = false ∨
      (['.', '.'] : List Char).isPrefixOf ("..y".data) = true) ∧
      ("..y".data : List Char) ≠ ['.']) :=
  ⟨by decide, payload_line_dot_invariant ("x\n.y\n".data) ("..y".data) (by decide)⟩
